import Mathlib

/-!
Shallow embedding of the e-commerce backend (`app/models.py`, `app/main.py`,
`app/schemas.py`, `app/worker.py`): the relational store, the cart routes and
the OCC-guarded checkout transaction `create_order_from_cart`, together with
theorems checking the design contract (all-or-nothing checkout, order pricing,
optimistic-locking behaviour, data-model invariants).
-/

namespace ECommerce

/-- A row of the `products` table (`app/models.py`, class `Product`):
`price` is modelled as a rational number, `stock_quantity` and `version` as
integers (the SQL columns are unconstrained integers); `version` has
column default 1. -/
structure Product where
  id : Nat
  name : String
  category : String
  price : ℚ
  stock_quantity : Int
  version : Int
deriving Repr, DecidableEq

/-- A row of the `carts` table (`app/models.py`, class `Cart`): one cart per
user, found by `user_id`. -/
structure Cart where
  id : Nat
  user_id : Nat
deriving Repr, DecidableEq

/-- A row of the `cart_items` table (`app/models.py`, class `CartItem`).
`quantity` is an unconstrained integer: `schemas.CartItemAdd` declares
`quantity : int` with no positivity validation. -/
structure CartItem where
  id : Nat
  cart_id : Nat
  product_id : Nat
  quantity : Int
deriving Repr, DecidableEq

/-- A row of the `orders` table (`app/models.py`, class `Order`). -/
structure Order where
  id : Nat
  user_id : Nat
  total_price : ℚ
  status : String
deriving Repr, DecidableEq

/-- A row of the `order_items` table (`app/models.py`, class `OrderItem`). -/
structure OrderItem where
  id : Nat
  order_id : Nat
  product_id : Nat
  quantity : Int
  price_at_purchase : ℚ
deriving Repr, DecidableEq

/-- The relational store: the five tables plus the auto-increment counters
for their integer primary keys. -/
structure Store where
  products : List Product
  carts : List Cart
  cartItems : List CartItem
  orders : List Order
  orderItems : List OrderItem
  nextProductId : Nat
  nextCartId : Nat
  nextCartItemId : Nat
  nextOrderId : Nat
  nextOrderItemId : Nat
deriving Repr, DecidableEq

/-- The freshly created database: every table empty, counters at 1. -/
def emptyStore : Store :=
  { products := [], carts := [], cartItems := [], orders := [], orderItems := []
    nextProductId := 1, nextCartId := 1, nextCartItemId := 1
    nextOrderId := 1, nextOrderItemId := 1 }

/-- `select(Product).where(Product.id == pid)` followed by
`scalar_one_or_none()`. -/
def findProduct (s : Store) (pid : Nat) : Option Product :=
  s.products.find? (fun p => p.id == pid)

/-- `select(Cart).where(Cart.user_id == uid)` followed by
`scalar_one_or_none()`. -/
def findCart (s : Store) (uid : Nat) : Option Cart :=
  s.carts.find? (fun c => c.user_id == uid)

/-- The items of a cart (`cart.items` relationship), in insertion order. -/
def cartItemsOf (s : Store) (cid : Nat) : List CartItem :=
  s.cartItems.filter (fun ci => ci.cart_id == cid)

/-- The order items recorded against an order id. -/
def orderItemsOf (s : Store) (oid : Nat) : List OrderItem :=
  s.orderItems.filter (fun oi => oi.order_id == oid)

/-- The `POST /products` route (`app/main.py`, `create_product`), after
the admin check: inserts a product built from the `ProductCreate` payload
(which carries no `version` field, so the column default 1 applies) and
returns the new row. -/
def create_product (s : Store) (name category : String) (price : ℚ)
    (stock_quantity : Int) : Store × Product :=
  let p : Product :=
    { id := s.nextProductId, name := name, category := category
      price := price, stock_quantity := stock_quantity, version := 1 }
  ({ s with products := s.products ++ [p], nextProductId := s.nextProductId + 1 }, p)

/-- The `POST /cart/items` route (`app/main.py`, `add_to_cart`): get or
lazily create the user's cart; if a row with this `(cart_id, product_id)`
already exists, increment its quantity, otherwise insert a new row. -/
def add_to_cart (s : Store) (uid : Nat) (product_id : Nat) (quantity : Int) :
    Store :=
  let sc :=
    match findCart s uid with
    | some c => (s, c)
    | none =>
      let c : Cart := { id := s.nextCartId, user_id := uid }
      ({ s with carts := s.carts ++ [c], nextCartId := s.nextCartId + 1 }, c)
  let s1 := sc.1
  let cart := sc.2
  match s1.cartItems.find? (fun ci => ci.cart_id == cart.id && ci.product_id == product_id) with
  | some _ =>
    { s1 with cartItems := s1.cartItems.map (fun ci =>
        if ci.cart_id == cart.id && ci.product_id == product_id then
          { ci with quantity := ci.quantity + quantity }
        else ci) }
  | none =>
    let item : CartItem :=
      { id := s1.nextCartItemId, cart_id := cart.id
        product_id := product_id, quantity := quantity }
    { s1 with cartItems := s1.cartItems ++ [item]
              nextCartItemId := s1.nextCartItemId + 1 }

/-- The `GET /cart` route (`app/main.py`, `view_cart`): a pure read; when the
user has no cart it answers with the placeholder `{"id": 0, "items": []}`
without creating anything. Returns the (unchanged) store, the reported cart
id and the reported item list. -/
def view_cart (s : Store) (uid : Nat) : Store × Nat × List CartItem :=
  match findCart s uid with
  | none => (s, 0, [])
  | some c => (s, c.id, cartItemsOf s c.id)

/-- The `DELETE /cart/items/{product_id}` route (`app/main.py`,
`remove_from_cart`): 404 when the user has no cart, otherwise delete every
cart item of that cart with the given product id. -/
def remove_from_cart (s : Store) (uid : Nat) (product_id : Nat) :
    Except Unit Store :=
  match findCart s uid with
  | none => Except.error ()
  | some c =>
    Except.ok { s with cartItems := s.cartItems.filter (fun ci =>
      !(ci.cart_id == c.id && ci.product_id == product_id)) }

/-- The optimistic-locking update of `create_order_from_cart`
(`app/main.py` lines 206–216): `UPDATE products SET stock_quantity =
stock_quantity - amount, version = version + 1 WHERE id = pid AND version =
expectedVersion`. Returns the updated store and the affected row count
(`update_result.rowcount`). -/
def conditionalDecrement (s : Store) (pid : Nat) (expectedVersion : Int)
    (amount : Int) : Store × Nat :=
  let hit := fun (p : Product) => p.id == pid && p.version == expectedVersion
  ({ s with products := s.products.map (fun p =>
      if hit p then
        { p with stock_quantity := p.stock_quantity - amount
                 version := p.version + 1 }
      else p) },
   (s.products.filter hit).length)

/-- The checkout error taxonomy of `create_order_from_cart`:
400 "Cart is empty", 404 "Product {id} not found", 400 "Out of stock:
{name}", 409 "Stock changed for {name}". -/
inductive CheckoutErr where
  | emptyCart : CheckoutErr
  | productNotFound (productId : Nat) : CheckoutErr
  | outOfStock (name : String) : CheckoutErr
  | stockChanged (name : String) : CheckoutErr
deriving Repr, DecidableEq

/-- The per-line loop of `create_order_from_cart` (`app/main.py` lines
194–225), over the uncommitted working state of the transaction: fetch the
product, fail 404 if missing, fail 400 if `stock_quantity < quantity`
(read-only check), then issue the version-guarded conditional update and fail
409 if it affected zero rows; on success record an `OrderItem` snapshot
(`price_at_purchase` = the price just fetched) and add `price * quantity`
to the running total. `interf` models writes committed by concurrent
transactions between this line's fetch and its conditional update (`interf i`
is applied before line `i`'s update); the sequential semantics is
`interf = fun _ t => t`. Order-item primary keys are assigned at commit. -/
def processLinesI (interf : Nat → Store → Store) :
    Nat → Store → Nat → List CartItem →
    Store × Except CheckoutErr (List OrderItem × ℚ)
  | _, s, _, [] => (s, Except.ok ([], 0))
  | i, s, oid, line :: rest =>
    match findProduct s line.product_id with
    | none => (s, Except.error (CheckoutErr.productNotFound line.product_id))
    | some product =>
      if product.stock_quantity < line.quantity then
        (s, Except.error (CheckoutErr.outOfStock product.name))
      else
        let s1 := interf i s
        let dec := conditionalDecrement s1 product.id product.version line.quantity
        if dec.2 = 0 then
          (dec.1, Except.error (CheckoutErr.stockChanged product.name))
        else
          match processLinesI interf (i + 1) dec.1 oid rest with
          | (s3, Except.error e) => (s3, Except.error e)
          | (s3, Except.ok (ois, total)) =>
            (s3, Except.ok
              ({ id := 0, order_id := oid, product_id := product.id
                 quantity := line.quantity
                 price_at_purchase := product.price } :: ois,
               product.price * (line.quantity : ℚ) + total))

/-- Assign consecutive primary keys starting at `n` to a batch of order
items (the ids the database hands out when the `db.add`-ed rows are
flushed at commit). -/
def numberFrom (n : Nat) : List OrderItem → List OrderItem
  | [] => []
  | oi :: rest => { oi with id := n } :: numberFrom (n + 1) rest

/-- Step 2 of the checkout transaction (`app/main.py` lines 189–191):
`db.add` of the transient `PROCESSING` order with `total_price = 0`,
followed by `db.flush()`, which assigns it the next order id. -/
def startTxn (s : Store) (uid : Nat) : Store :=
  { s with
    orders := s.orders ++
      [{ id := s.nextOrderId, user_id := uid, total_price := 0, status := "PROCESSING" }]
    nextOrderId := s.nextOrderId + 1 }

/-- The body of `create_order_from_cart` (`app/main.py` lines 176–234) up to
and including `db.commit()`, acting on the uncommitted working state: load
the cart, fail with `EmptyCart` if absent or empty; insert the transient
`PROCESSING` order with `total_price = 0` (the flush assigns its id);
process the cart lines; then finalize the order with the running total and
status `CONFIRMED`, insert the order items, and delete every cart item of
the cart. On error the working state reached so far is returned alongside
the error (the caller rolls it back). -/
def checkoutTxn (interf : Nat → Store → Store) (s : Store) (uid : Nat) :
    Store × Except CheckoutErr Order :=
  match findCart s uid with
  | none => (s, Except.error CheckoutErr.emptyCart)
  | some cart =>
    let items := cartItemsOf s cart.id
    if items = [] then (s, Except.error CheckoutErr.emptyCart)
    else
      let oid := s.nextOrderId
      match processLinesI interf 0 (startTxn s uid) oid items with
      | (s1, Except.error e) => (s1, Except.error e)
      | (s1, Except.ok (ois, total)) =>
        let order : Order :=
          { id := oid, user_id := uid, total_price := total, status := "CONFIRMED" }
        (({ s1 with
            orders := s1.orders.map (fun o => if o.id == oid then order else o)
            orderItems := s1.orderItems ++ numberFrom s1.nextOrderItemId ois
            nextOrderItemId := s1.nextOrderItemId + ois.length
            cartItems := s1.cartItems.filter (fun ci => !(ci.cart_id == cart.id)) }),
         Except.ok order)

/-- The `POST /orders` route (`app/main.py`, `create_order_from_cart`) as
observed through the committed store: the transaction body runs on the
working state; on success `db.commit()` publishes it, on any raised error
`db.rollback()` discards every uncommitted change, leaving the committed
store as it was before the attempt. Sequential semantics (no concurrent
interference). -/
def create_order_from_cart (s : Store) (uid : Nat) :
    Store × Except CheckoutErr Order :=
  match checkoutTxn (fun _ t => t) s uid with
  | (_, Except.error e) => (s, Except.error e)
  | (s1, Except.ok o) => (s1, Except.ok o)

/-- The post-commit best-effort side effects of `create_order_from_cart`
(`app/main.py` lines 237–241): the handoffs that actually happen. -/
inductive Effect where
  | cacheInvalidate : Effect
  | emailHandoff (uid : Nat) (orderId : Nat) : Effect
deriving Repr, DecidableEq

/-- `create_order_from_cart` together with its post-commit side-effect
block: only after a successful commit does the code run
`try: cache.delete("products_list"); send_order_email.delay(...) except:
pass`. `cacheFails` (resp. `emailFails`) models the cache call (resp. the
celery handoff) raising; both calls share one `try`, so a cache failure
also skips the email handoff, and either failure is swallowed. Returns the
committed outcome and the list of side effects that were performed. -/
def create_order_full (cacheFails emailFails : Bool) (s : Store) (uid : Nat) :
    (Store × Except CheckoutErr Order) × List Effect :=
  match create_order_from_cart s uid with
  | (s1, Except.ok o) =>
    let effects :=
      if cacheFails then []
      else if emailFails then [Effect.cacheInvalidate]
      else [Effect.cacheInvalidate, Effect.emailHandoff uid o.id]
    ((s1, Except.ok o), effects)
  | (s1, Except.error e) => ((s1, Except.error e), [])

/-- Two cart-item rows collide when they share the `(cart_id, product_id)`
key. -/
def cartKeyClash (a b : CartItem) : Prop :=
  a.cart_id = b.cart_id ∧ a.product_id = b.product_id

/-- Uniqueness of `(cart_id, product_id)` over the `cart_items` table. -/
def CartUnique (s : Store) : Prop :=
  List.Pairwise (fun a b => ¬ cartKeyClash a b) s.cartItems

/-- Every cart item has a positive quantity. -/
def CartQuantitiesPos (s : Store) : Prop :=
  ∀ ci ∈ s.cartItems, 0 < ci.quantity

/-- Every product has nonnegative stock and version at least 1. -/
def ProductInv (s : Store) : Prop :=
  ∀ p ∈ s.products, 0 ≤ p.stock_quantity ∧ 1 ≤ p.version

/-- Primary keys of `products` are pairwise distinct. -/
def ProductIdsNodup (s : Store) : Prop :=
  (s.products.map Product.id).Nodup

/-- Primary keys of `products` are below the auto-increment counter. -/
def ProductIdsBelow (s : Store) : Prop :=
  ∀ p ∈ s.products, p.id < s.nextProductId

/-- Cart primary keys, and the cart keys referenced by cart items, are below
the cart auto-increment counter. -/
def CartIdsBelow (s : Store) : Prop :=
  (∀ c ∈ s.carts, c.id < s.nextCartId) ∧ (∀ ci ∈ s.cartItems, ci.cart_id < s.nextCartId)

/-- Order-item rows reference orders below the order auto-increment
counter. -/
def OrderItemIdsBelow (s : Store) : Prop :=
  ∀ oi ∈ s.orderItems, oi.order_id < s.nextOrderId

/-- The stores reachable from the fresh database through the service's
mutating routes, with the payload filters `createOK` (on the
`stock_quantity` of a `POST /products` payload) and `addOK` (on the
`quantity` of a `POST /cart/items` payload) restricting which request
bodies are allowed; the routes themselves accept any integer. -/
inductive ReachableP (createOK addOK : Int → Prop) : Store → Prop where
  | init : ReachableP createOK addOK emptyStore
  | step_create_product (s : Store) (nm cat : String) (price : ℚ) (stock : Int) :
      ReachableP createOK addOK s → createOK stock →
      ReachableP createOK addOK (create_product s nm cat price stock).1
  | step_add_to_cart (s : Store) (uid pid : Nat) (q : Int) :
      ReachableP createOK addOK s → addOK q →
      ReachableP createOK addOK (add_to_cart s uid pid q)
  | step_remove_from_cart (s t : Store) (uid pid : Nat) :
      ReachableP createOK addOK s → remove_from_cart s uid pid = Except.ok t →
      ReachableP createOK addOK t
  | step_checkout (s : Store) (uid : Nat) :
      ReachableP createOK addOK s →
      ReachableP createOK addOK (create_order_from_cart s uid).1

/-- The stores reachable through the routes exactly as implemented: any
integer payloads are accepted. -/
def Reachable : Store → Prop :=
  ReachableP (fun _ => True) (fun _ => True)

/-- Reachability when every `POST /products` payload carries a nonnegative
`stock_quantity` (the schema itself does not enforce this). -/
def ReachableNN : Store → Prop :=
  ReachableP (fun q => 0 ≤ q) (fun _ => True)

/-- Reachability when every `POST /cart/items` payload carries a positive
`quantity` (the schema itself does not enforce this). -/
def ReachablePos : Store → Prop :=
  ReachableP (fun _ => True) (fun q => 0 < q)

/-- Fixture: catalog with product 1 = "A" (price 5, stock 3) and product 2 =
"B" (price 3, stock 10), as in the spec's two-line scenario. -/
def catalogStore : Store :=
  (create_product (create_product emptyStore "A" "General" 5 3).1 "B" "General" 3 10).1

/-- Fixture: `catalogStore` after user 1 put 2 units of product 1 and 1 unit
of product 2 in the cart. -/
def demoStore : Store :=
  add_to_cart (add_to_cart catalogStore 1 1 2) 1 2 1

/-- Fixture: the confirmed order produced by checking out `demoStore`. -/
def demoOrder : Order :=
  { id := 1, user_id := 1, total_price := 13, status := "CONFIRMED" }

/-- Fixture: the committed store after the successful checkout of
`demoStore`: stock decremented and versions bumped on both lines, cart
cleared, confirmed order and its two snapshot items recorded. -/
def demoPost : Store :=
  { products :=
      [{ id := 1, name := "A", category := "General", price := 5, stock_quantity := 1, version := 2 },
       { id := 2, name := "B", category := "General", price := 3, stock_quantity := 9, version := 2 }]
    carts := [{ id := 1, user_id := 1 }]
    cartItems := []
    orders := [{ id := 1, user_id := 1, total_price := 13, status := "CONFIRMED" }]
    orderItems :=
      [{ id := 1, order_id := 1, product_id := 1, quantity := 2, price_at_purchase := 5 },
       { id := 2, order_id := 1, product_id := 2, quantity := 1, price_at_purchase := 3 }]
    nextProductId := 3, nextCartId := 2, nextCartItemId := 3
    nextOrderId := 2, nextOrderItemId := 3 }

/-- Fixture: a cart holding one unit of product 99, which does not exist in
the catalog (the spec's "product later deleted" scenario). -/
def ghostCartStore : Store :=
  add_to_cart emptyStore 1 99 1

/-- Fixture: user 1 has a cart row but no cart items. -/
def bareCartStore : Store :=
  { emptyStore with carts := [{ id := 1, user_id := 1 }], nextCartId := 2 }

/-- Fixture: a concurrent writer that, between a checkout's product fetch
and its conditional update, commits a version bump on product 1 (a
zero-amount conditional decrement against version 1). -/
def versionBump : Nat → Store → Store :=
  fun _ t => (conditionalDecrement t 1 1 0).1

/-- Fixture: the product row created by posting `stock_quantity = -3`. -/
def negProduct : Product :=
  { id := 1, name := "A", category := "General", price := 5
    stock_quantity := -3, version := 1 }

/-- Fixture: the store after an admin posts a product with
`stock_quantity = -3` — the `ProductCreate` schema does not validate the
field, so the route accepts it. -/
def negStockStore : Store :=
  (create_product emptyStore "A" "General" 5 (-3)).1

/-- Fixture: the cart-item row created by adding product 1 with
`quantity = 0`. -/
def zeroQtyItem : CartItem :=
  { id := 1, cart_id := 1, product_id := 1, quantity := 0 }

/-- Fixture: the store after user 1 adds product 1 with `quantity = 0` —
the `CartItemAdd` schema does not validate the field, so the route accepts
it. -/
def zeroQtyStore : Store :=
  add_to_cart emptyStore 1 1 0

/-- Fixture: user 1's cart holding a single line, 2 units of product 1. -/
def soloCartStore : Store :=
  add_to_cart emptyStore 1 1 2

/-! ## Basic lemmas -/

/-- A checkout attempt that raises any error commits nothing: the
`db.rollback()` in the `except` branch discards every uncommitted mutation,
so the committed store is exactly the pre-attempt store. -/
lemma checkout_error_rollback (s : Store) (uid : Nat) (e : CheckoutErr)
    (h : (create_order_from_cart s uid).2 = Except.error e) :
    (create_order_from_cart s uid).1 = s := by
  unfold create_order_from_cart at h ⊢
  rcases hT : checkoutTxn (fun _ t => t) s uid with ⟨s1, r⟩
  cases r with
  | error e2 => rfl
  | ok o => rw [hT] at h; simp at h

/-- A checkout that commits is reported as such by `checkoutTxn`. -/
lemma checkout_ok_txn (s : Store) (uid : Nat) (s1 : Store) (o : Order)
    (h : create_order_from_cart s uid = (s1, Except.ok o)) :
    checkoutTxn (fun _ t => t) s uid = (s1, Except.ok o) := by
  unfold create_order_from_cart at h
  rcases hT : checkoutTxn (fun _ t => t) s uid with ⟨s2, r⟩
  cases r with
  | error e2 => rw [hT] at h; simp at h
  | ok o2 => rw [hT] at h; simp at h; rw [h.1, h.2]

/-! ## Claims -/

/-- C1: for every checkout attempt that fails (with any of the modelled
errors: `EmptyCart`, `ProductNotFound`, `OutOfStock`, `StockChanged`), the
committed store after the attempt is exactly the pre-attempt store — no
order row, no order items, no stock or version change, cart untouched. -/
theorem claim_C1 (s : Store) (uid : Nat) (e : CheckoutErr)
    (h : (create_order_from_cart s uid).2 = Except.error e) :
    (create_order_from_cart s uid).1 = s :=
  checkout_error_rollback s uid e h

/-- Witness for C1: checking out a cart whose only line references the
nonexistent product 99 fails with `ProductNotFound 99` and leaves the
store untouched. -/
theorem claim_C1_witness :
    (create_order_from_cart ghostCartStore 1).2
        = Except.error (CheckoutErr.productNotFound 99)
    ∧ (create_order_from_cart ghostCartStore 1).1 = ghostCartStore :=
  ⟨rfl, claim_C1 ghostCartStore 1 (CheckoutErr.productNotFound 99) rfl⟩

/-- C6: when the user has no cart, or a cart with zero items, checkout
fails with `EmptyCart` and the committed store is exactly the pre-attempt
store (in particular no `Order` row is created). -/
theorem claim_C6 (s : Store) (uid : Nat) :
    (findCart s uid = none →
      create_order_from_cart s uid = (s, Except.error CheckoutErr.emptyCart))
    ∧ ∀ c, findCart s uid = some c → cartItemsOf s c.id = [] →
      create_order_from_cart s uid = (s, Except.error CheckoutErr.emptyCart) := by
  constructor
  · intro h
    unfold create_order_from_cart checkoutTxn
    rw [h]
  · intro c hc hitems
    unfold create_order_from_cart checkoutTxn
    rw [hc]
    simp only [hitems, if_pos]

/-- Witness for C6: user 2 has no cart in `demoStore`, and user 1's cart in
`bareCartStore` exists but has zero items; both checkouts fail with
`EmptyCart` leaving the store unchanged. -/
theorem claim_C6_witness :
    create_order_from_cart demoStore 2
        = (demoStore, Except.error CheckoutErr.emptyCart)
    ∧ create_order_from_cart bareCartStore 1
        = (bareCartStore, Except.error CheckoutErr.emptyCart) :=
  ⟨(claim_C6 demoStore 2).1 rfl,
   (claim_C6 bareCartStore 1).2 { id := 1, user_id := 1 } rfl rfl⟩

/-- C10: viewing the cart of a user who has never created one neither fails
nor creates anything: the store is returned unchanged together with the
placeholder cart id 0 and an empty item list. -/
theorem claim_C10 (s : Store) (uid : Nat) (h : findCart s uid = none) :
    view_cart s uid = (s, 0, []) := by
  unfold view_cart
  rw [h]

/-- Witness for C10: the fresh database has no cart for user 7. -/
theorem claim_C10_witness :
    view_cart emptyStore 7 = (emptyStore, 0, []) :=
  claim_C10 emptyStore 7 rfl

/-- C9: the post-commit side effects (cache invalidation and the
order-confirmed email handoff) are attempted only after a successful
commit — a failed attempt performs none — and their failure modes never
change the committed store or the outcome handed to the caller: the
committed result is identical for every combination of side-effect
failures. -/
theorem claim_C9 (cacheFails emailFails : Bool) (s : Store) (uid : Nat) :
    (create_order_full cacheFails emailFails s uid).1 = create_order_from_cart s uid
    ∧ (∀ e, (create_order_from_cart s uid).2 = Except.error e →
        (create_order_full cacheFails emailFails s uid).2 = [])
    ∧ ((create_order_full cacheFails emailFails s uid).2 ≠ [] →
        (create_order_from_cart s uid).2.isOk = true) := by
  unfold create_order_full
  rcases h : create_order_from_cart s uid with ⟨s1, r⟩
  cases r with
  | error e2 => simp
  | ok o => simp [Except.isOk, Except.toBool]

/-- A conditional update that affected zero rows mutated nothing. -/
lemma condDec_zero_rows (s : Store) (pid : Nat) (v amt : Int)
    (h : (conditionalDecrement s pid v amt).2 = 0) :
    (conditionalDecrement s pid v amt).1 = s := by
  unfold conditionalDecrement at h ⊢
  simp only at h ⊢
  rw [List.length_eq_zero, List.filter_eq_nil_iff] at h
  have hmap : s.products.map (fun p =>
      if p.id == pid && p.version == v then
        { p with stock_quantity := p.stock_quantity - amt, version := p.version + 1 }
      else p) = s.products := by
    conv_rhs => rw [← List.map_id s.products]
    apply List.map_congr_left
    intro a ha
    simp [h a ha]
  rw [hmap]

/-- When the expected version is the product's current version and product
ids are unique, the conditional update affects exactly one row and rewrites
exactly that product, decrementing its stock by the requested amount and
incrementing its version. -/
lemma condDec_current_version (s : Store) (pid : Nat) (p : Product)
    (hfind : findProduct s pid = some p) (hnodup : ProductIdsNodup s)
    (amt : Int) :
    (conditionalDecrement s p.id p.version amt).2 = 1
    ∧ (conditionalDecrement s p.id p.version amt).1.products
        = s.products.map (fun q =>
            if q.id = p.id then
              { q with stock_quantity := q.stock_quantity - amt, version := q.version + 1 }
            else q) := by
  have hmem : p ∈ s.products := List.mem_of_find?_eq_some hfind
  have hinj := List.inj_on_of_nodup_map (f := Product.id) hnodup
  have hnd : s.products.Nodup := List.Nodup.of_map Product.id hnodup
  have hhit : ∀ q ∈ s.products,
      (q.id == p.id && q.version == p.version) = (q == p) := by
    intro q hq
    by_cases hqp : q = p
    · subst hqp; simp
    · have hid : q.id ≠ p.id := fun hEq => hqp (hinj hq hmem hEq)
      have h1 : (q.id == p.id) = false := beq_eq_false_iff_ne.mpr hid
      have h2 : (q == p) = false := beq_eq_false_iff_ne.mpr hqp
      simp [h1, h2]
  constructor
  · show (s.products.filter _).length = 1
    rw [← List.countP_eq_length_filter]
    calc s.products.countP (fun q => q.id == p.id && q.version == p.version)
        = s.products.countP (fun q => q == p) :=
          List.countP_congr (fun x hx => by rw [hhit x hx])
      _ = s.products.count p := rfl
      _ = 1 := List.count_eq_one_of_mem hnd hmem
  · show s.products.map _ = _
    apply List.map_congr_left
    intro q hq
    by_cases hqp : q = p
    · subst hqp; simp
    · have hid : q.id ≠ p.id := fun hEq => hqp (hinj hq hmem hEq)
      have h1 : (q.id == p.id) = false := beq_eq_false_iff_ne.mpr hid
      simp [h1, hid]

/-- C3: the per-line behaviour of the checkout loop. A missing product
fails the attempt with `ProductNotFound` naming the product id; an
insufficient `stock_quantity` fails it with `OutOfStock` naming the
product, with the working store untouched by that read-only check; in
every other case the loop performs the single conditional update guarded by
`version == expectedVersion`, which (product ids being unique) affects
exactly one row, setting its `stock_quantity` to `stock_quantity -
quantity` and its `version` to `version + 1`, and checkout continues over
the remaining lines from exactly that updated store. -/
theorem claim_C3 (i oid : Nat) (s : Store) (line : CartItem) (rest : List CartItem) :
    (findProduct s line.product_id = none →
      processLinesI (fun _ t => t) i s oid (line :: rest)
        = (s, Except.error (CheckoutErr.productNotFound line.product_id)))
    ∧ (∀ p, findProduct s line.product_id = some p →
        p.stock_quantity < line.quantity →
        processLinesI (fun _ t => t) i s oid (line :: rest)
          = (s, Except.error (CheckoutErr.outOfStock p.name)))
    ∧ (∀ p, findProduct s line.product_id = some p →
        ¬ p.stock_quantity < line.quantity → ProductIdsNodup s →
        (conditionalDecrement s p.id p.version line.quantity).2 = 1
        ∧ (conditionalDecrement s p.id p.version line.quantity).1.products
            = s.products.map (fun q =>
                if q.id = p.id then
                  { q with stock_quantity := q.stock_quantity - line.quantity
                           version := q.version + 1 }
                else q)
        ∧ (processLinesI (fun _ t => t) i s oid (line :: rest)).1
            = (processLinesI (fun _ t => t) (i + 1)
                (conditionalDecrement s p.id p.version line.quantity).1 oid rest).1) := by
  refine ⟨fun h => ?_, fun p hfind hstock => ?_, fun p hfind hstock hnodup => ?_⟩
  · unfold processLinesI
    rw [h]
  · simp [processLinesI, hfind, hstock]
  · obtain ⟨hcount, hprod⟩ := condDec_current_version s line.product_id p hfind hnodup line.quantity
    refine ⟨hcount, hprod, ?_⟩
    rcases hrec : processLinesI (fun _ t => t) (i + 1)
        (conditionalDecrement s p.id p.version line.quantity).1 oid rest with ⟨s3, r⟩
    cases r with
    | error e => simp [processLinesI, hfind, hstock, hcount, hrec]
    | ok pr =>
      cases pr with
      | mk ois total => simp [processLinesI, hfind, hstock, hcount, hrec]

/-- Witness for C3, success branch: product 1 of `catalogStore` ("A",
stock 3, version 1) against a line of quantity 2: the guarded update
affects one row, decrements its stock to 1 and bumps its version to 2. -/
theorem claim_C3_witness :
    (conditionalDecrement catalogStore 1 1 2).2 = 1
    ∧ (conditionalDecrement catalogStore 1 1 2).1.products
        = catalogStore.products.map (fun q =>
            if q.id = 1 then
              { q with stock_quantity := q.stock_quantity - 2, version := q.version + 1 }
            else q)
    ∧ (processLinesI (fun _ t => t) 0 catalogStore 1
          ({ id := 1, cart_id := 1, product_id := 1, quantity := 2 } :: [])).1
        = (processLinesI (fun _ t => t) 1 (conditionalDecrement catalogStore 1 1 2).1 1 []).1 :=
  (claim_C3 0 1 catalogStore { id := 1, cart_id := 1, product_id := 1, quantity := 2 } []).2.2
    { id := 1, name := "A", category := "General", price := 5, stock_quantity := 3, version := 1 }
    rfl (by decide) (by unfold ProductIdsNodup; decide)

/-- C4: if the version-guarded conditional update for a cart line affects
zero rows, the checkout loop aborts at that line with `StockChanged` naming
the line's product — for every remainder of the cart, so no later line is
processed and nothing is retried — and the zero-row update itself mutated
nothing: the working store is exactly as the concurrent writer left it.
Lines are consumed head-first in the cart's stored insertion order, so the
first conflicting line determines the reported product. -/
theorem claim_C4 (interf : Nat → Store → Store) (i oid : Nat) (s : Store)
    (line : CartItem) (rest : List CartItem) (p : Product)
    (hfind : findProduct s line.product_id = some p)
    (hstock : ¬ p.stock_quantity < line.quantity)
    (hzero : (conditionalDecrement (interf i s) p.id p.version line.quantity).2 = 0) :
    processLinesI interf i s oid (line :: rest)
      = (interf i s, Except.error (CheckoutErr.stockChanged p.name)) := by
  unfold processLinesI
  rw [hfind]
  simp only [if_neg hstock, hzero, if_pos]
  rw [condDec_zero_rows _ _ _ _ hzero]

/-- Witness for C4: while a checkout of the one-line cart (2 units of
product 1) is between its fetch of product 1 (version 1) and its guarded
update, the concurrent writer `versionBump` commits a version bump; the
guarded update then affects zero rows and the attempt aborts with
`StockChanged "A"` on the concurrent writer's store. -/
theorem claim_C4_witness :
    processLinesI versionBump 0 catalogStore 1
        [{ id := 1, cart_id := 1, product_id := 1, quantity := 2 }]
      = (versionBump 0 catalogStore, Except.error (CheckoutErr.stockChanged "A")) :=
  claim_C4 versionBump 0 1 catalogStore
    { id := 1, cart_id := 1, product_id := 1, quantity := 2 } []
    { id := 1, name := "A", category := "General", price := 5, stock_quantity := 3, version := 1 }
    rfl (by decide) (by decide)

/-- Witness for C9: checking out `demoStore` with both side effects healthy
performs the handoffs after commit, and the committed result matches
`create_order_from_cart`; the outcome is a successful order. -/
theorem claim_C9_witness :
    (create_order_full false false demoStore 1).1 = create_order_from_cart demoStore 1
    ∧ (create_order_from_cart demoStore 1).2.isOk = true :=
  ⟨(claim_C9 false false demoStore 1).1,
   (claim_C9 false false demoStore 1).2.2 (by decide)⟩

/-! ## Lemmas about the successful checkout path -/

/-- The conditional update never changes which product a lookup finds, nor
its price: it rewrites only `stock_quantity` and `version`. -/
lemma findProduct_price_condDec (s : Store) (pid : Nat) (v amt : Int) (q : Nat) :
    Option.map Product.price (findProduct (conditionalDecrement s pid v amt).1 q)
      = Option.map Product.price (findProduct s q) := by
  unfold findProduct conditionalDecrement
  simp only
  rw [List.find?_map, Option.map_map]
  have hpred : ((fun p : Product => p.id == q) ∘ (fun p =>
      if p.id == pid && p.version == v then
        { p with stock_quantity := p.stock_quantity - amt, version := p.version + 1 }
      else p)) = (fun p : Product => p.id == q) := by
    funext pr
    by_cases hh : (pr.id == pid && pr.version == v) = true <;>
      simp [Function.comp, hh]
  have hprice : (Product.price ∘ (fun p : Product =>
      if p.id == pid && p.version == v then
        { p with stock_quantity := p.stock_quantity - amt, version := p.version + 1 }
      else p)) = Product.price := by
    funext pr
    by_cases hh : (pr.id == pid && pr.version == v) = true <;>
      simp [Function.comp, hh]
  rw [hpred, hprice]

/-- What a successful run of the checkout loop guarantees, sequentially:
the running total is exactly the sum of `quantity * price_at_purchase` over
the produced snapshots; every snapshot carries the target order id and the
price the catalog held for its product when the loop started; and the loop
wrote nothing outside the `products` table. -/
lemma processLines_ok (lines : List CartItem) :
    ∀ i s oid s1 ois total,
      processLinesI (fun _ t => t) i s oid lines = (s1, Except.ok (ois, total)) →
      total = (ois.map (fun oi => (oi.quantity : ℚ) * oi.price_at_purchase)).sum
      ∧ (∀ oi ∈ ois, oi.order_id = oid)
      ∧ (∀ oi ∈ ois, Option.map Product.price (findProduct s oi.product_id)
            = some oi.price_at_purchase)
      ∧ s1.carts = s.carts ∧ s1.cartItems = s.cartItems ∧ s1.orders = s.orders
      ∧ s1.orderItems = s.orderItems ∧ s1.nextOrderId = s.nextOrderId
      ∧ s1.nextOrderItemId = s.nextOrderItemId ∧ s1.nextProductId = s.nextProductId
      ∧ s1.nextCartId = s.nextCartId ∧ s1.nextCartItemId = s.nextCartItemId := by
  induction lines with
  | nil =>
    intro i s oid s1 ois total h
    unfold processLinesI at h
    injection h with h1 h2
    injection h2 with h3
    injection h3 with h4 h5
    subst h1 h4 h5
    simp
  | cons line rest ih =>
    intro i s oid s1 ois total h
    rcases hf : findProduct s line.product_id with _ | p
    · simp [processLinesI, hf] at h
    · by_cases hst : p.stock_quantity < line.quantity
      · simp [processLinesI, hf, hst] at h
      · by_cases hz : (conditionalDecrement s p.id p.version line.quantity).2 = 0
        · simp [processLinesI, hf, hst, hz] at h
        · rcases hrec : processLinesI (fun _ t => t) (i + 1)
              (conditionalDecrement s p.id p.version line.quantity).1 oid rest
            with ⟨s3, r⟩
          cases r with
          | error e => simp [processLinesI, hf, hst, hz, hrec] at h
          | ok pr =>
            obtain ⟨ois2, total2⟩ := pr
            simp [processLinesI, hf, hst, hz, hrec] at h
            obtain ⟨hs3, hois, htot⟩ := h
            obtain ⟨ihtot, ihoid, ihprice, ihc, ihci, iho, ihoi, ihno, ihnoi, ihnp, ihnc, ihnci⟩ :=
              ih (i + 1) (conditionalDecrement s p.id p.version line.quantity).1
                oid s3 ois2 total2 hrec
            subst hs3
            refine ⟨?_, ?_, ?_, ihc, ihci, iho, ihoi, ihno, ihnoi, ihnp, ihnc, ihnci⟩
            · rw [← hois, ← htot, List.map_cons, List.sum_cons, ihtot]
              simp [mul_comm]
            · intro oi hoi
              rw [← hois] at hoi
              rcases List.mem_cons.mp hoi with hhd | htl
              · subst hhd; rfl
              · exact ihoid oi htl
            · intro oi hoi
              rw [← hois] at hoi
              rcases List.mem_cons.mp hoi with hhd | htl
              · subst hhd
                have hpid : p.id = line.product_id := by
                  have := List.find?_some hf
                  simpa using this
                simp only []
                rw [hpid, hf]
                rfl
              · rw [← findProduct_price_condDec s p.id p.version line.quantity]
                exact ihprice oi htl

/-- Anatomy of a committed checkout: the cart was found and nonempty, the
line loop succeeded from the post-flush working state, the returned order
is the `CONFIRMED` order carrying the running total under the flushed id,
and the committed store is the loop's store with the order finalized in
place, the numbered snapshots appended and the cart's items deleted. -/
lemma checkout_ok_dissect (s : Store) (uid : Nat) (s1 : Store) (o : Order)
    (h : create_order_from_cart s uid = (s1, Except.ok o)) :
    ∃ c sPL ois total,
      findCart s uid = some c
      ∧ processLinesI (fun _ t => t) 0 (startTxn s uid) s.nextOrderId (cartItemsOf s c.id)
          = (sPL, Except.ok (ois, total))
      ∧ o = { id := s.nextOrderId, user_id := uid, total_price := total, status := "CONFIRMED" }
      ∧ s1 = { sPL with
          orders := sPL.orders.map (fun oo => if oo.id == s.nextOrderId then o else oo)
          orderItems := sPL.orderItems ++ numberFrom sPL.nextOrderItemId ois
          nextOrderItemId := sPL.nextOrderItemId + ois.length
          cartItems := sPL.cartItems.filter (fun ci => !(ci.cart_id == c.id)) } := by
  have hT := checkout_ok_txn s uid s1 o h
  unfold checkoutTxn at hT
  split at hT
  · exact absurd (congrArg Prod.snd hT) (by simp)
  · rename_i cart hc2
    simp only [] at hT
    split at hT
    · exact absurd (congrArg Prod.snd hT) (by simp)
    · rename_i hni
      split at hT
      · exact absurd (congrArg Prod.snd hT) (by simp)
      · rename_i sPL ois total hPL
        injection hT with hs1 ho
        injection ho with ho2
        refine ⟨cart, sPL, ois, total, hc2, hPL, ho2.symm, ?_⟩
        rw [← hs1, ← ho2]

/-- Renumbering snapshot primary keys changes no other field: the
`quantity * price_at_purchase` map is unchanged. -/
lemma numberFrom_map_lineTotal (l : List OrderItem) : ∀ n,
    (numberFrom n l).map (fun oi => (oi.quantity : ℚ) * oi.price_at_purchase)
      = l.map (fun oi => (oi.quantity : ℚ) * oi.price_at_purchase) := by
  induction l with
  | nil => intro n; rfl
  | cons oi rest ih => intro n; simp [numberFrom, ih (n + 1)]

/-- Every renumbered snapshot agrees with some original snapshot on all
fields but the primary key. -/
lemma numberFrom_fields (l : List OrderItem) : ∀ n, ∀ oi ∈ numberFrom n l,
    ∃ oj ∈ l, oi.order_id = oj.order_id ∧ oi.product_id = oj.product_id
      ∧ oi.quantity = oj.quantity ∧ oi.price_at_purchase = oj.price_at_purchase := by
  induction l with
  | nil => intro n oi hoi; simp [numberFrom] at hoi
  | cons hd rest ih =>
    intro n oi hoi
    rcases List.mem_cons.mp hoi with hh | ht
    · exact ⟨hd, List.mem_cons_self hd rest, by simp [hh]⟩
    · obtain ⟨oj, hoj, hfs⟩ := ih (n + 1) oi ht
      exact ⟨oj, List.mem_cons_of_mem hd hoj, hfs⟩

/-- `add_to_cart` writes only to the cart tables. -/
lemma add_to_cart_orderItems (s : Store) (uid pid : Nat) (q : Int) :
    (add_to_cart s uid pid q).orderItems = s.orderItems := by
  unfold add_to_cart
  rcases findCart s uid with _ | c <;> simp only [] <;>
    rcases hfi : List.find? _ _ with _ | it <;> simp [hfi]

/-- C2: a successful checkout commits an order whose `total_price` is
exactly the sum of `quantity * price_at_purchase` over the order's
recorded `OrderItem` rows, each `price_at_purchase` being the catalog
price of the line's product during the attempt (the sequential transaction
reads it at fetch time and the conditional decrement never touches
`price`, so it is also the price at the moment of that line's decrement);
and no operation ever rewrites a recorded order item afterwards —
`create_product`, `add_to_cart` and `remove_from_cart` leave the
`order_items` table unchanged and later checkouts only append to it. -/
theorem claim_C2 (s : Store) (uid : Nat) (s1 : Store) (o : Order)
    (hbelow : OrderItemIdsBelow s)
    (h : create_order_from_cart s uid = (s1, Except.ok o)) :
    o.total_price
        = ((orderItemsOf s1 o.id).map
            (fun oi => (oi.quantity : ℚ) * oi.price_at_purchase)).sum
    ∧ (∀ oi ∈ orderItemsOf s1 o.id,
        Option.map Product.price (findProduct s oi.product_id) = some oi.price_at_purchase)
    ∧ (∀ nm cat pr st, (create_product s1 nm cat pr st).1.orderItems = s1.orderItems)
    ∧ (∀ uid2 pid q, (add_to_cart s1 uid2 pid q).orderItems = s1.orderItems)
    ∧ (∀ uid2 pid t, remove_from_cart s1 uid2 pid = Except.ok t →
        t.orderItems = s1.orderItems)
    ∧ (∀ uid2, ∀ oi ∈ s1.orderItems, oi ∈ (create_order_from_cart s1 uid2).1.orderItems) := by
  obtain ⟨c, sPL, ois, total, hc, hPL, ho, hs1⟩ := checkout_ok_dissect s uid s1 o h
  obtain ⟨htot, hoid, hprice, hcarts, hci, hord, hoi, hno, hnoi, hnp, hnc, hnci⟩ :=
    processLines_ok (cartItemsOf s c.id) 0 (startTxn s uid) s.nextOrderId sPL ois total hPL
  subst ho
  subst hs1
  have hfilters : orderItemsOf
      { sPL with
        orders := sPL.orders.map (fun oo =>
          if oo.id == s.nextOrderId then
            { id := s.nextOrderId, user_id := uid, total_price := total, status := "CONFIRMED" }
          else oo)
        orderItems := sPL.orderItems ++ numberFrom sPL.nextOrderItemId ois
        nextOrderItemId := sPL.nextOrderItemId + ois.length
        cartItems := sPL.cartItems.filter (fun ci => !(ci.cart_id == c.id)) }
      s.nextOrderId = numberFrom sPL.nextOrderItemId ois := by
    unfold orderItemsOf
    show (sPL.orderItems ++ numberFrom sPL.nextOrderItemId ois).filter
        (fun oi => oi.order_id == s.nextOrderId) = _
    rw [List.filter_append]
    have h1 : sPL.orderItems.filter (fun oi => oi.order_id == s.nextOrderId) = [] := by
      rw [List.filter_eq_nil_iff]
      intro a ha
      rw [hoi] at ha
      have hlt := hbelow a ha
      simp [Nat.ne_of_lt hlt]
    have h2 : (numberFrom sPL.nextOrderItemId ois).filter
        (fun oi => oi.order_id == s.nextOrderId) = numberFrom sPL.nextOrderItemId ois := by
      rw [List.filter_eq_self]
      intro a ha
      obtain ⟨oj, hoj, hfs⟩ := numberFrom_fields ois sPL.nextOrderItemId a ha
      have : a.order_id = s.nextOrderId := hfs.1.trans (hoid oj hoj)
      simp [this]
    rw [h1, h2, List.nil_append]
  refine ⟨?_, ?_, ?_, ?_, ?_, ?_⟩
  · show total = _
    rw [hfilters, numberFrom_map_lineTotal ois sPL.nextOrderItemId]
    exact htot
  · intro oi hmem
    rw [hfilters] at hmem
    obtain ⟨oj, hoj, hfs⟩ := numberFrom_fields ois sPL.nextOrderItemId oi hmem
    rw [hfs.2.1, hfs.2.2.2]
    exact hprice oj hoj
  · intro nm cat pr st; rfl
  · intro uid2 pid q; exact add_to_cart_orderItems _ uid2 pid q
  · intro uid2 pid t hrem
    unfold remove_from_cart at hrem
    rcases hfc2 : findCart _ uid2 with _ | c2
    · rw [hfc2] at hrem; simp at hrem
    · rw [hfc2] at hrem
      injection hrem with ht
      rw [← ht]
  · intro uid2 oi hmem
    rcases hr : create_order_from_cart _ uid2 with ⟨s2, r2⟩
    cases r2 with
    | error e =>
      have hroll := checkout_error_rollback _ uid2 e (by rw [hr])
      rw [hr] at hroll
      show oi ∈ s2.orderItems
      rw [show s2 = _ from hroll]
      exact hmem
    | ok o2 =>
      obtain ⟨c2, sPL2, ois2, total2, _, hPL2, _, hs2⟩ :=
        checkout_ok_dissect _ uid2 s2 o2 hr
      obtain ⟨_, _, _, _, _, _, hoi2, _, _, _, _, _⟩ :=
        processLines_ok _ 0 _ _ sPL2 ois2 total2 hPL2
      show oi ∈ s2.orderItems
      rw [hs2]
      show oi ∈ sPL2.orderItems ++ numberFrom sPL2.nextOrderItemId ois2
      apply List.mem_append_left
      rw [hoi2]
      exact hmem

/-- Witness for C2: the successful checkout of `demoStore` commits
`demoOrder` with `total_price = 13 = 2 * 5 + 1 * 3`, the sum of
`quantity * price_at_purchase` over its two recorded order items in
`demoPost`. -/
theorem claim_C2_witness :
    demoOrder.total_price
        = ((orderItemsOf demoPost demoOrder.id).map
            (fun oi => (oi.quantity : ℚ) * oi.price_at_purchase)).sum :=
  (claim_C2 demoStore 1 demoPost demoOrder
    (by intro oi hmem
        rw [show demoStore.orderItems = [] from rfl] at hmem
        exact absurd hmem (List.not_mem_nil oi))
    (by with_unfolding_all rfl)).1

/-! ## Product invariants (C5) -/

/-- `add_to_cart` never touches the `products` table or its counter. -/
lemma add_to_cart_products (s : Store) (uid pid : Nat) (q : Int) :
    (add_to_cart s uid pid q).products = s.products
    ∧ (add_to_cart s uid pid q).nextProductId = s.nextProductId := by
  unfold add_to_cart
  rcases findCart s uid with _ | c <;> simp only [] <;>
    rcases hfi : List.find? _ _ with _ | it <;> simp [hfi]

/-- Anatomy of a successful `remove_from_cart`: the user's cart exists and
the result deletes exactly that cart's rows for the given product. -/
lemma remove_from_cart_ok (s : Store) (uid pid : Nat) (t : Store)
    (h : remove_from_cart s uid pid = Except.ok t) :
    ∃ c, findCart s uid = some c
      ∧ t = { s with cartItems := s.cartItems.filter (fun ci =>
          !(ci.cart_id == c.id && ci.product_id == pid)) } := by
  unfold remove_from_cart at h
  rcases hc : findCart s uid with _ | c
  · rw [hc] at h; simp at h
  · rw [hc] at h
    injection h with h2
    exact ⟨c, rfl, h2.symm⟩

/-- A conditional decrement issued with the current version of a product
whose stock covers the amount preserves the product invariants: stock
stays nonnegative, versions stay at least 1, ids stay distinct and below
the counter. -/
lemma condDec_guarded_inv (s : Store) (pid : Nat) (p : Product) (amt : Int)
    (hfind : findProduct s pid = some p) (hstock : ¬ p.stock_quantity < amt)
    (hInv : ProductInv s) (hnd : ProductIdsNodup s) (hbel : ProductIdsBelow s) :
    ProductInv (conditionalDecrement s p.id p.version amt).1
    ∧ ProductIdsNodup (conditionalDecrement s p.id p.version amt).1
    ∧ ProductIdsBelow (conditionalDecrement s p.id p.version amt).1 := by
  have hmem : p ∈ s.products := List.mem_of_find?_eq_some hfind
  have hinj := List.inj_on_of_nodup_map (f := Product.id) hnd
  have hids : (conditionalDecrement s p.id p.version amt).1.products.map Product.id
      = s.products.map Product.id := by
    show (s.products.map _).map Product.id = _
    rw [List.map_map]
    apply List.map_congr_left
    intro a ha
    by_cases hh : (a.id == p.id && a.version == p.version) = true <;>
      simp [Function.comp, hh]
  refine ⟨?_, ?_, ?_⟩
  · intro q hq
    obtain ⟨q0, hq0, rfl⟩ := List.mem_map.mp hq
    by_cases hh : (q0.id == p.id && q0.version == p.version) = true
    · have hh2 : q0.id = p.id ∧ q0.version = p.version := by simpa using hh
      have hq0p : q0 = p := hinj hq0 hmem hh2.1
      subst hq0p
      have hv := (hInv q0 hmem).2
      rw [if_pos hh]
      constructor
      · show 0 ≤ q0.stock_quantity - amt
        omega
      · show (1 : Int) ≤ q0.version + 1
        omega
    · rw [if_neg hh]
      exact hInv q0 hq0
  · unfold ProductIdsNodup
    rw [hids]
    exact hnd
  · intro q hq
    obtain ⟨q0, hq0, rfl⟩ := List.mem_map.mp hq
    show _ < s.nextProductId
    by_cases hh : (q0.id == p.id && q0.version == p.version) = true
    · rw [if_pos hh]
      show q0.id < s.nextProductId
      exact hbel q0 hq0
    · rw [if_neg hh]
      exact hbel q0 hq0

/-- The checkout loop preserves the product invariants whatever its
outcome: every decrement it performs is guarded by the fetched stock and
version. -/
lemma processLines_productInv (lines : List CartItem) :
    ∀ i s oid s1 r, processLinesI (fun _ t => t) i s oid lines = (s1, r) →
      ProductInv s → ProductIdsNodup s → ProductIdsBelow s →
      ProductInv s1 ∧ ProductIdsNodup s1 ∧ ProductIdsBelow s1
        ∧ s1.nextProductId = s.nextProductId := by
  induction lines with
  | nil =>
    intro i s oid s1 r h h1 h2 h3
    unfold processLinesI at h
    injection h with ha hb
    subst ha
    exact ⟨h1, h2, h3, rfl⟩
  | cons line rest ih =>
    intro i s oid s1 r h h1 h2 h3
    rcases hf : findProduct s line.product_id with _ | p
    · unfold processLinesI at h
      rw [hf] at h
      injection h with ha hb
      subst ha
      exact ⟨h1, h2, h3, rfl⟩
    · by_cases hst : p.stock_quantity < line.quantity
      · simp [processLinesI, hf, hst] at h
        obtain ⟨ha, hb⟩ := h
        subst ha
        exact ⟨h1, h2, h3, rfl⟩
      · by_cases hz : (conditionalDecrement s p.id p.version line.quantity).2 = 0
        · have hsz := condDec_zero_rows s p.id p.version line.quantity hz
          simp [processLinesI, hf, hst, hz] at h
          obtain ⟨ha, hb⟩ := h
          have hs1 : s1 = s := ha.symm.trans hsz
          subst hs1
          exact ⟨h1, h2, h3, rfl⟩
        · obtain ⟨hI2, hN2, hB2⟩ :=
            condDec_guarded_inv s line.product_id p line.quantity hf hst h1 h2 h3
          rcases hrec : processLinesI (fun _ t => t) (i + 1)
              (conditionalDecrement s p.id p.version line.quantity).1 oid rest
            with ⟨s3, r3⟩
          have hnext : (conditionalDecrement s p.id p.version line.quantity).1.nextProductId
              = s.nextProductId := rfl
          obtain ⟨jI, jN, jB, jP⟩ := ih (i + 1) _ oid s3 r3 hrec hI2 hN2 hB2
          cases r3 with
          | error e =>
            simp [processLinesI, hf, hst, hz, hrec] at h
            obtain ⟨ha, hb⟩ := h
            subst ha
            exact ⟨jI, jN, jB, jP.trans hnext⟩
          | ok pr =>
            obtain ⟨ois2, total2⟩ := pr
            simp [processLinesI, hf, hst, hz, hrec] at h
            obtain ⟨ha, hb⟩ := h
            subst ha
            exact ⟨jI, jN, jB, jP.trans hnext⟩

/-- A whole checkout attempt preserves the product invariants, whether it
commits or rolls back. -/
lemma checkout_productInv (s : Store) (uid : Nat)
    (h1 : ProductInv s) (h2 : ProductIdsNodup s) (h3 : ProductIdsBelow s) :
    ProductInv (create_order_from_cart s uid).1
    ∧ ProductIdsNodup (create_order_from_cart s uid).1
    ∧ ProductIdsBelow (create_order_from_cart s uid).1 := by
  rcases hr : create_order_from_cart s uid with ⟨s2, r⟩
  cases r with
  | error e =>
    have hroll := checkout_error_rollback s uid e (by rw [hr])
    rw [hr] at hroll
    show ProductInv s2 ∧ ProductIdsNodup s2 ∧ ProductIdsBelow s2
    rw [show s2 = s from hroll]
    exact ⟨h1, h2, h3⟩
  | ok o =>
    obtain ⟨c, sPL, ois, total, hc, hPL, ho, hs2⟩ := checkout_ok_dissect s uid s2 o hr
    obtain ⟨jI, jN, jB, _⟩ :=
      processLines_productInv (cartItemsOf s c.id) 0 (startTxn s uid) s.nextOrderId
        sPL _ hPL h1 h2 h3
    subst hs2
    exact ⟨jI, jN, jB⟩

/-- Creating a product with nonnegative stock preserves the product
invariants; the new row gets a fresh id and version 1. -/
lemma create_product_inv (s : Store) (nm cat : String) (pr : ℚ) (st : Int)
    (hst : 0 ≤ st) (h1 : ProductInv s) (h2 : ProductIdsNodup s) (h3 : ProductIdsBelow s) :
    ProductInv (create_product s nm cat pr st).1
    ∧ ProductIdsNodup (create_product s nm cat pr st).1
    ∧ ProductIdsBelow (create_product s nm cat pr st).1 := by
  refine ⟨?_, ?_, ?_⟩
  · intro p hp
    rcases List.mem_append.mp hp with hold | hnew
    · exact h1 p hold
    · rw [List.mem_singleton] at hnew
      subst hnew
      exact ⟨hst, le_refl 1⟩
  · show ((s.products ++ [_]).map Product.id).Nodup
    rw [List.map_append, List.nodup_append]
    refine ⟨h2, List.nodup_singleton _, ?_⟩
    intro a ha hb
    rw [List.mem_map] at ha
    obtain ⟨p0, hp0, hpa⟩ := ha
    have hb2 : a = s.nextProductId := by simpa using hb
    have := h3 p0 hp0
    omega
  · intro p hp
    show p.id < s.nextProductId + 1
    rcases List.mem_append.mp hp with hold | hnew
    · exact Nat.lt_succ_of_lt (h3 p hold)
    · rw [List.mem_singleton] at hnew
      subst hnew
      exact Nat.lt_succ_self _

/-- Every store reachable under nonnegative product-creation payloads
satisfies the product invariants. -/
lemma reachNN_product_inv (s : Store) (h : ReachableNN s) :
    ProductInv s ∧ ProductIdsNodup s ∧ ProductIdsBelow s := by
  have h2 : ReachableP (fun q => 0 ≤ q) (fun _ => True) s := h
  clear h
  induction h2 with
  | init =>
    refine ⟨?_, ?_, ?_⟩
    · intro p hp; simp [emptyStore] at hp
    · simp [ProductIdsNodup, emptyStore]
    · intro p hp; simp [emptyStore] at hp
  | step_create_product t nm cat prc st ht hOK ih =>
    exact create_product_inv t nm cat prc st hOK ih.1 ih.2.1 ih.2.2
  | step_add_to_cart t uid pid q ht hOK ih =>
    obtain ⟨hp, hn⟩ := add_to_cart_products t uid pid q
    refine ⟨?_, ?_, ?_⟩
    · unfold ProductInv; rw [hp]; exact ih.1
    · unfold ProductIdsNodup; rw [hp]; exact ih.2.1
    · unfold ProductIdsBelow; rw [hp, hn]; exact ih.2.2
  | step_remove_from_cart t t2 uid pid ht hrem ih =>
    obtain ⟨c, hc, rfl⟩ := remove_from_cart_ok t uid pid t2 hrem
    exact ⟨ih.1, ih.2.1, ih.2.2⟩
  | step_checkout t uid ht ih =>
    exact checkout_productInv t uid ih.1 ih.2.1 ih.2.2

/-- The conditional decrement — the only stock-mutation path — either
leaves a row untouched or increments its version by exactly one while
decrementing its stock by the amount; ids and prices never change. -/
lemma condDec_version_bump (s : Store) (pid : Nat) (v amt : Int) :
    ∀ q ∈ (conditionalDecrement s pid v amt).1.products,
      ∃ q0 ∈ s.products, q.id = q0.id ∧ q.price = q0.price
        ∧ (q = q0 ∨ (q.version = q0.version + 1
            ∧ q.stock_quantity = q0.stock_quantity - amt)) := by
  intro q hq
  obtain ⟨q0, hq0, rfl⟩ := List.mem_map.mp hq
  by_cases hh : (q0.id == pid && q0.version == v) = true
  · exact ⟨q0, hq0, by simp [hh]⟩
  · exact ⟨q0, hq0, by simp [hh]⟩

/-- Counterexample to C5 as stated: `POST /products` performs no validation
on `stock_quantity` (`ProductCreate` declares a bare `int`), so a store
whose only product has `stock_quantity = -3` is reachable — the invariant
`stock_quantity >= 0` does not hold at all reachable states. -/
theorem claim_C5_cex :
    Reachable negStockStore
    ∧ negStockStore.products = [negProduct]
    ∧ negProduct.stock_quantity = -3
    ∧ ¬ ProductInv negStockStore := by
  refine ⟨?_, rfl, rfl, ?_⟩
  · exact ReachableP.step_create_product emptyStore "A" "General" 5 (-3)
      ReachableP.init trivial
  · intro hInv
    have hm : negProduct ∈ negStockStore.products := by
      rw [show negStockStore.products = [negProduct] from rfl]
      exact List.mem_singleton_self _
    have h2 : (0 : Int) ≤ -3 := (hInv _ hm).1
    exact absurd h2 (by decide)

/-- C5 as amended: provided every `POST /products` payload carries a
nonnegative `stock_quantity` (the route itself does not check this — see
the counterexample), every reachable store keeps `stock_quantity >= 0` and
`version >= 1` on all products; a product is created with version exactly
1; and the conditional decrement — the only path that mutates stock —
either leaves a row unchanged or increments its version by exactly one
while decrementing its stock, so versions strictly increase with each
accepted mutation and are never reused. -/
theorem claim_C5_amended :
    (∀ s, ReachableNN s → ProductInv s)
    ∧ (∀ s nm cat pr st, ((create_product s nm cat pr st).2).version = 1)
    ∧ (∀ s pid v amt, ∀ q ∈ (conditionalDecrement s pid v amt).1.products,
        ∃ q0 ∈ s.products, q.id = q0.id ∧ q.price = q0.price
          ∧ (q = q0 ∨ (q.version = q0.version + 1
              ∧ q.stock_quantity = q0.stock_quantity - amt))) :=
  ⟨fun s h => (reachNN_product_inv s h).1,
   fun _ _ _ _ _ => rfl,
   fun s pid v amt => condDec_version_bump s pid v amt⟩

/-- Witness for the amended C5: `catalogStore` is reachable with
nonnegative creation payloads and satisfies the product invariant. -/
theorem claim_C5_witness : ProductInv catalogStore :=
  claim_C5_amended.1 catalogStore
    (ReachableP.step_create_product _ "B" "General" 3 10
      (ReachableP.step_create_product _ "A" "General" 5 3
        ReachableP.init (by decide)) (by decide))

/-! ## Cart invariants (C7, C8) -/

/-- `add_to_cart` for a user with no cart (given cart-id bounds): a fresh
cart is created and the item is inserted against it. -/
lemma add_to_cart_none (s : Store) (uid pid : Nat) (q : Int)
    (hfc : findCart s uid = none)
    (hb : ∀ ci ∈ s.cartItems, ci.cart_id < s.nextCartId) :
    add_to_cart s uid pid q
      = { s with
          carts := s.carts ++ [{ id := s.nextCartId, user_id := uid }]
          nextCartId := s.nextCartId + 1
          cartItems := s.cartItems ++
            [{ id := s.nextCartItemId, cart_id := s.nextCartId
               product_id := pid, quantity := q }]
          nextCartItemId := s.nextCartItemId + 1 } := by
  have hnone : s.cartItems.find?
      (fun ci => ci.cart_id == s.nextCartId && ci.product_id == pid) = none := by
    rw [List.find?_eq_none]
    intro ci hci h2
    simp at h2
    have := hb ci hci
    omega
  unfold add_to_cart
  rw [hfc]
  simp only []
  rw [hnone]

/-- `add_to_cart` when the product is already in the cart: the existing
row's quantity is incremented in place; no row is inserted. -/
lemma add_to_cart_some_found (s : Store) (uid pid : Nat) (q : Int) (c : Cart)
    (it : CartItem) (hfc : findCart s uid = some c)
    (hit : s.cartItems.find?
      (fun ci => ci.cart_id == c.id && ci.product_id == pid) = some it) :
    add_to_cart s uid pid q
      = { s with cartItems := s.cartItems.map (fun ci =>
          if ci.cart_id == c.id && ci.product_id == pid then
            { ci with quantity := ci.quantity + q }
          else ci) } := by
  unfold add_to_cart
  rw [hfc]
  simp only []
  rw [hit]

/-- `add_to_cart` when the cart exists but lacks the product: a new row is
appended. -/
lemma add_to_cart_some_new (s : Store) (uid pid : Nat) (q : Int) (c : Cart)
    (hfc : findCart s uid = some c)
    (hnone : s.cartItems.find?
      (fun ci => ci.cart_id == c.id && ci.product_id == pid) = none) :
    add_to_cart s uid pid q
      = { s with
          cartItems := s.cartItems ++
            [{ id := s.nextCartItemId, cart_id := c.id, product_id := pid, quantity := q }]
          nextCartItemId := s.nextCartItemId + 1 } := by
  unfold add_to_cart
  rw [hfc]
  simp only []
  rw [hnone]

/-- The quantity-increment rewrite keeps every row's key and primary key. -/
lemma incr_keeps_keys (pred : CartItem → Bool) (q : Int) (ci : CartItem) :
    ((if pred ci then { ci with quantity := ci.quantity + q } else ci).cart_id = ci.cart_id)
    ∧ ((if pred ci then { ci with quantity := ci.quantity + q } else ci).product_id
        = ci.product_id)
    ∧ ((if pred ci then { ci with quantity := ci.quantity + q } else ci).id = ci.id) := by
  by_cases h : pred ci = true
  · rw [if_pos h]; exact ⟨rfl, rfl, rfl⟩
  · rw [if_neg h]; exact ⟨rfl, rfl, rfl⟩

/-- `add_to_cart` preserves uniqueness of `(cart_id, product_id)` and the
cart-id bounds. -/
lemma add_to_cart_cart_inv (s : Store) (uid pid : Nat) (q : Int)
    (hu : CartUnique s) (hb : CartIdsBelow s) :
    CartUnique (add_to_cart s uid pid q) ∧ CartIdsBelow (add_to_cart s uid pid q) := by
  rcases hfc : findCart s uid with _ | c
  · rw [add_to_cart_none s uid pid q hfc hb.2]
    refine ⟨?_, ?_, ?_⟩
    · show List.Pairwise _ (s.cartItems ++ [_])
      rw [List.pairwise_append]
      refine ⟨hu, List.pairwise_singleton _ _, ?_⟩
      intro a ha b hbm
      rw [List.mem_singleton] at hbm
      subst hbm
      intro hclash
      have h1 := hb.2 a ha
      have h2 : a.cart_id = s.nextCartId := hclash.1
      omega
    · intro cc hcc
      show cc.id < s.nextCartId + 1
      rcases List.mem_append.mp hcc with hold | hnew
      · exact Nat.lt_succ_of_lt (hb.1 cc hold)
      · rw [List.mem_singleton] at hnew
        subst hnew
        exact Nat.lt_succ_self _
    · intro ci hci
      show ci.cart_id < s.nextCartId + 1
      rcases List.mem_append.mp hci with hold | hnew
      · exact Nat.lt_succ_of_lt (hb.2 ci hold)
      · rw [List.mem_singleton] at hnew
        subst hnew
        exact Nat.lt_succ_self _
  · have hcmem : c ∈ s.carts := List.mem_of_find?_eq_some hfc
    rcases hfi : s.cartItems.find?
        (fun ci => ci.cart_id == c.id && ci.product_id == pid) with _ | it
    · rw [add_to_cart_some_new s uid pid q c hfc hfi]
      have hnomatch := List.find?_eq_none.mp hfi
      refine ⟨?_, ?_, ?_⟩
      · show List.Pairwise _ (s.cartItems ++ [_])
        rw [List.pairwise_append]
        refine ⟨hu, List.pairwise_singleton _ _, ?_⟩
        intro a ha b hbm
        rw [List.mem_singleton] at hbm
        subst hbm
        intro hclash
        exact hnomatch a ha (by simp [hclash.1, hclash.2])
      · intro cc hcc
        exact hb.1 cc hcc
      · intro ci hci
        show ci.cart_id < s.nextCartId
        rcases List.mem_append.mp hci with hold | hnew
        · exact hb.2 ci hold
        · rw [List.mem_singleton] at hnew
          subst hnew
          exact hb.1 c hcmem
    · rw [add_to_cart_some_found s uid pid q c it hfc hfi]
      refine ⟨?_, ?_, ?_⟩
      · show List.Pairwise _ (s.cartItems.map _)
        rw [List.pairwise_map]
        apply List.Pairwise.imp ?_ hu
        intro a b hab hclash
        apply hab
        obtain ⟨ka, kb, _⟩ := incr_keeps_keys
          (fun ci => ci.cart_id == c.id && ci.product_id == pid) q a
        obtain ⟨ka2, kb2, _⟩ := incr_keeps_keys
          (fun ci => ci.cart_id == c.id && ci.product_id == pid) q b
        exact ⟨(ka.symm.trans hclash.1).trans ka2, (kb.symm.trans hclash.2).trans kb2⟩
      · intro cc hcc
        exact hb.1 cc hcc
      · intro ci hci
        obtain ⟨ci0, hci0, rfl⟩ := List.mem_map.mp hci
        show _ < s.nextCartId
        rw [(incr_keeps_keys
          (fun ci => ci.cart_id == c.id && ci.product_id == pid) q ci0).1]
        exact hb.2 ci0 hci0

/-- `add_to_cart` with a positive payload preserves positivity of all
cart-item quantities. -/
lemma add_to_cart_qty_pos (s : Store) (uid pid : Nat) (q : Int)
    (hq : 0 < q) (hpos : CartQuantitiesPos s)
    (hb : CartIdsBelow s) :
    CartQuantitiesPos (add_to_cart s uid pid q) := by
  rcases hfc : findCart s uid with _ | c
  · rw [add_to_cart_none s uid pid q hfc hb.2]
    intro ci hci
    rcases List.mem_append.mp hci with hold | hnew
    · exact hpos ci hold
    · rw [List.mem_singleton] at hnew
      subst hnew
      exact hq
  · rcases hfi : s.cartItems.find?
        (fun ci => ci.cart_id == c.id && ci.product_id == pid) with _ | it
    · rw [add_to_cart_some_new s uid pid q c hfc hfi]
      intro ci hci
      rcases List.mem_append.mp hci with hold | hnew
      · exact hpos ci hold
      · rw [List.mem_singleton] at hnew
        subst hnew
        exact hq
    · rw [add_to_cart_some_found s uid pid q c it hfc hfi]
      intro ci hci
      obtain ⟨ci0, hci0, rfl⟩ := List.mem_map.mp hci
      have h0 := hpos ci0 hci0
      by_cases hh : (ci0.cart_id == c.id && ci0.product_id == pid) = true
      · rw [if_pos hh]
        show 0 < ci0.quantity + q
        omega
      · rw [if_neg hh]
        exact h0

/-- A whole checkout attempt either leaves the `cart_items` table unchanged
(rollback) or deletes exactly one cart's rows (commit); it never touches
`carts` or the cart counters. -/
lemma checkout_cart_tables (s : Store) (uid : Nat) :
    (create_order_from_cart s uid).1.carts = s.carts
    ∧ (create_order_from_cart s uid).1.nextCartId = s.nextCartId
    ∧ (create_order_from_cart s uid).1.nextCartItemId = s.nextCartItemId
    ∧ ((∃ cid, (create_order_from_cart s uid).1.cartItems
          = s.cartItems.filter (fun ci => !(ci.cart_id == cid)))
        ∨ (create_order_from_cart s uid).1.cartItems = s.cartItems) := by
  rcases hr : create_order_from_cart s uid with ⟨s2, r⟩
  cases r with
  | error e =>
    have hroll := checkout_error_rollback s uid e (by rw [hr])
    rw [hr] at hroll
    have hs2 : s2 = s := hroll
    subst hs2
    exact ⟨rfl, rfl, rfl, Or.inr rfl⟩
  | ok o =>
    obtain ⟨c, sPL, ois, total, hc, hPL, ho, hs2⟩ := checkout_ok_dissect s uid s2 o hr
    obtain ⟨_, _, _, hcarts, hci, _, _, _, _, _, hnc, hnci⟩ :=
      processLines_ok (cartItemsOf s c.id) 0 (startTxn s uid) s.nextOrderId
        sPL ois total hPL
    subst hs2
    refine ⟨?_, ?_, ?_, Or.inl ⟨c.id, ?_⟩⟩
    · show sPL.carts = s.carts
      exact hcarts
    · show sPL.nextCartId = s.nextCartId
      exact hnc
    · show sPL.nextCartItemId = s.nextCartItemId
      exact hnci
    · show sPL.cartItems.filter _ = _
      rw [hci]
      rfl

/-- Every reachable store — under any payload discipline — has at most one
cart-item row per `(cart_id, product_id)` and respects the cart-id
bounds. -/
lemma reach_cart_inv (createOK addOK : Int → Prop) (s : Store)
    (h : ReachableP createOK addOK s) : CartUnique s ∧ CartIdsBelow s := by
  induction h with
  | init =>
    refine ⟨List.Pairwise.nil, ?_, ?_⟩
    · intro c hc; simp [emptyStore] at hc
    · intro ci hci; simp [emptyStore] at hci
  | step_create_product t nm cat prc st ht hOK ih =>
    exact ⟨ih.1, ih.2.1, ih.2.2⟩
  | step_add_to_cart t uid pid q ht hOK ih =>
    exact add_to_cart_cart_inv t uid pid q ih.1 ih.2
  | step_remove_from_cart t t2 uid pid ht hrem ih =>
    obtain ⟨c, hc, rfl⟩ := remove_from_cart_ok t uid pid t2 hrem
    refine ⟨?_, ih.2.1, ?_⟩
    · exact List.Pairwise.sublist (List.filter_sublist _) ih.1
    · intro ci hci
      exact ih.2.2 ci (List.mem_of_mem_filter hci)
  | step_checkout t uid ht ih =>
    obtain ⟨hcarts, hnc, hnci, hitems⟩ := checkout_cart_tables t uid
    refine ⟨?_, ?_, ?_⟩
    · unfold CartUnique
      rcases hitems with ⟨cid, heq⟩ | heq <;> rw [heq]
      · exact List.Pairwise.sublist (List.filter_sublist _) ih.1
      · exact ih.1
    · intro cc hcc
      rw [hcarts] at hcc
      rw [hnc]
      exact ih.2.1 cc hcc
    · intro ci hci
      rw [hnc]
      rcases hitems with ⟨cid, heq⟩ | heq <;> rw [heq] at hci
      · exact ih.2.2 ci (List.mem_of_mem_filter hci)
      · exact ih.2.2 ci hci

/-- Every store reachable under positive add-to-cart payloads has only
positive cart-item quantities. -/
lemma reachPos_qty (s : Store) (h : ReachablePos s) : CartQuantitiesPos s := by
  have h2 : ReachableP (fun _ => True) (fun q => 0 < q) s := h
  clear h
  induction h2 with
  | init =>
    intro ci hci; simp [emptyStore] at hci
  | step_create_product t nm cat prc st ht hOK ih =>
    exact ih
  | step_add_to_cart t uid pid q ht hOK ih =>
    exact add_to_cart_qty_pos t uid pid q hOK ih
      (reach_cart_inv (fun _ => True) (fun q => 0 < q) t ht).2
  | step_remove_from_cart t t2 uid pid ht hrem ih =>
    obtain ⟨c, hc, rfl⟩ := remove_from_cart_ok t uid pid t2 hrem
    intro ci hci
    exact ih ci (List.mem_of_mem_filter hci)
  | step_checkout t uid ht ih =>
    obtain ⟨_, _, _, hitems⟩ := checkout_cart_tables t uid
    intro ci hci
    rcases hitems with ⟨cid, heq⟩ | heq <;> rw [heq] at hci
    · exact ih ci (List.mem_of_mem_filter hci)
    · exact ih ci hci

/-- Counterexample to C7 as stated: `POST /cart/items` performs no
validation on `quantity` (`CartItemAdd` declares a bare `int`), so a store
whose only cart item has `quantity = 0` is reachable — cart-item
quantities are not always positive. -/
theorem claim_C7_cex :
    Reachable zeroQtyStore
    ∧ zeroQtyStore.cartItems = [zeroQtyItem]
    ∧ zeroQtyItem.quantity = 0
    ∧ ¬ CartQuantitiesPos zeroQtyStore := by
  refine ⟨?_, rfl, rfl, ?_⟩
  · exact ReachableP.step_add_to_cart emptyStore 1 1 0 ReachableP.init trivial
  · intro hpos
    have hm : zeroQtyItem ∈ zeroQtyStore.cartItems := by
      rw [show zeroQtyStore.cartItems = [zeroQtyItem] from rfl]
      exact List.mem_singleton_self _
    have h2 : (0 : Int) < 0 := hpos _ hm
    exact absurd h2 (by decide)

/-- C7 as amended: at every reachable state each `(cart_id, product_id)`
pair appears in at most one `CartItem` row, and adding an already-present
product increments that row's quantity in place without inserting a
duplicate row; quantities are positive at every state reachable under
positive `POST /cart/items` payloads, but the route itself accepts any
integer quantity (see the counterexample). -/
theorem claim_C7_amended :
    (∀ s, Reachable s → CartUnique s)
    ∧ (∀ s, ReachablePos s → CartQuantitiesPos s)
    ∧ (∀ s uid pid q c it, findCart s uid = some c →
        s.cartItems.find?
          (fun ci => ci.cart_id == c.id && ci.product_id == pid) = some it →
        (add_to_cart s uid pid q).cartItems
          = s.cartItems.map (fun ci =>
              if ci.cart_id == c.id && ci.product_id == pid then
                { ci with quantity := ci.quantity + q }
              else ci)
        ∧ (add_to_cart s uid pid q).cartItems.length = s.cartItems.length) :=
  ⟨fun s h => (reach_cart_inv (fun _ => True) (fun _ => True) s h).1,
   fun s h => reachPos_qty s h,
   fun s uid pid q c it hfc hfi => by
     rw [add_to_cart_some_found s uid pid q c it hfc hfi]
     exact ⟨rfl, List.length_map _ _⟩⟩

/-- Witness for the amended C7: `demoStore` is reachable, its cart items
have pairwise-distinct keys, and re-adding product 1 (already in the cart)
increments the existing row in place, leaving the row count at 2. -/
theorem claim_C7_witness :
    CartUnique demoStore
    ∧ (add_to_cart demoStore 1 1 5).cartItems
        = demoStore.cartItems.map (fun ci =>
            if ci.cart_id == 1 && ci.product_id == 1 then
              { ci with quantity := ci.quantity + 5 }
            else ci)
    ∧ (add_to_cart demoStore 1 1 5).cartItems.length = demoStore.cartItems.length :=
  ⟨claim_C7_amended.1 demoStore
    (ReachableP.step_add_to_cart _ 1 2 1
      (ReachableP.step_add_to_cart _ 1 1 2
        (ReachableP.step_create_product _ "B" "General" 3 10
          (ReachableP.step_create_product _ "A" "General" 5 3
            ReachableP.init trivial) trivial) trivial) trivial),
   (claim_C7_amended.2.2 demoStore 1 1 5 { id := 1, user_id := 1 }
      { id := 1, cart_id := 1, product_id := 1, quantity := 2 } rfl rfl).1,
   (claim_C7_amended.2.2 demoStore 1 1 5 { id := 1, user_id := 1 }
      { id := 1, cart_id := 1, product_id := 1, quantity := 2 } rfl rfl).2⟩

/-- Counterexample to C8 as stated: `remove_from_cart` on a cart whose
only rows carry the named product deletes them all — an operation other
than a successful checkout empties the cart (no order exists at all in
this store). -/
theorem claim_C8_cex :
    soloCartStore.cartItems ≠ []
    ∧ soloCartStore.orders = []
    ∧ remove_from_cart soloCartStore 1 1
        = Except.ok { soloCartStore with cartItems := [] } := by
  refine ⟨by decide, rfl, ?_⟩
  rfl

/-- C8 as amended: a successful checkout deletes all of the checked-out
cart's `CartItem` rows in the same committed state that records the
`CONFIRMED` order with its final `total_price` (one atomic unit); a failed
checkout leaves the `cart_items` table untouched, and so do
`create_product` and `view_cart`, while `add_to_cart` never removes a row.
Besides a successful checkout the one operation that does delete rows is
`remove_from_cart`, which removes exactly the cart's rows for the named
product — and can therefore empty a cart that held only that product (see
the counterexample). -/
theorem claim_C8_amended :
    (∀ s uid c s1 o, findCart s uid = some c →
        create_order_from_cart s uid = (s1, Except.ok o) →
        cartItemsOf s1 c.id = [] ∧ o.status = "CONFIRMED" ∧ o ∈ s1.orders)
    ∧ (∀ s uid pid q, ∀ ci ∈ s.cartItems,
        ∃ ci2 ∈ (add_to_cart s uid pid q).cartItems,
          ci2.id = ci.id ∧ ci2.cart_id = ci.cart_id ∧ ci2.product_id = ci.product_id)
    ∧ (∀ s uid e, (create_order_from_cart s uid).2 = Except.error e →
        (create_order_from_cart s uid).1.cartItems = s.cartItems)
    ∧ (∀ s uid pid c t, findCart s uid = some c →
        remove_from_cart s uid pid = Except.ok t →
        t.cartItems = s.cartItems.filter (fun ci =>
          !(ci.cart_id == c.id && ci.product_id == pid)))
    ∧ (∀ s nm cat pr st, (create_product s nm cat pr st).1.cartItems = s.cartItems)
    ∧ (∀ s uid, (view_cart s uid).1 = s) := by
  refine ⟨?_, ?_, ?_, ?_, ?_, ?_⟩
  · intro s uid c s1 o hfc hok
    obtain ⟨c2, sPL, ois, total, hc2, hPL, ho, hs1⟩ := checkout_ok_dissect s uid s1 o hok
    rw [hfc] at hc2
    injection hc2 with hcc
    subst hcc
    obtain ⟨_, _, _, _, hci, hord, _, _, _, _, _, _⟩ :=
      processLines_ok (cartItemsOf s c.id) 0 (startTxn s uid) s.nextOrderId
        sPL ois total hPL
    subst hs1
    refine ⟨?_, ?_, ?_⟩
    · show List.filter _ (List.filter _ sPL.cartItems) = []
      rw [List.filter_eq_nil_iff]
      intro a ha
      obtain ⟨_, h3⟩ := List.mem_filter.mp ha
      intro h2
      rw [h2] at h3
      exact absurd h3 (by decide)
    · rw [ho]
    · show o ∈ List.map _ sPL.orders
      rw [hord]
      refine List.mem_map.mpr
        ⟨{ id := s.nextOrderId, user_id := uid, total_price := 0, status := "PROCESSING" },
         ?_, ?_⟩
      · show _ ∈ s.orders ++ [_]
        exact List.mem_append_right _ (List.mem_singleton_self _)
      · simp
  · intro s uid pid q ci hci
    unfold add_to_cart
    rcases findCart s uid with _ | c <;> simp only [] <;>
      rcases hfi : List.find? _ _ with _ | it <;> simp only [hfi]
    · exact ⟨ci, List.mem_append_left _ hci, rfl, rfl, rfl⟩
    · refine ⟨_, List.mem_map_of_mem _ hci, ?_, ?_, ?_⟩
      · exact (incr_keeps_keys
          (fun x => x.cart_id == s.nextCartId && x.product_id == pid) q ci).2.2
      · exact (incr_keeps_keys
          (fun x => x.cart_id == s.nextCartId && x.product_id == pid) q ci).1
      · exact (incr_keeps_keys
          (fun x => x.cart_id == s.nextCartId && x.product_id == pid) q ci).2.1
    · exact ⟨ci, List.mem_append_left _ hci, rfl, rfl, rfl⟩
    · refine ⟨_, List.mem_map_of_mem _ hci, ?_, ?_, ?_⟩
      · exact (incr_keeps_keys
          (fun x => x.cart_id == c.id && x.product_id == pid) q ci).2.2
      · exact (incr_keeps_keys
          (fun x => x.cart_id == c.id && x.product_id == pid) q ci).1
      · exact (incr_keeps_keys
          (fun x => x.cart_id == c.id && x.product_id == pid) q ci).2.1
  · intro s uid e he
    rw [checkout_error_rollback s uid e he]
  · intro s uid pid c t hfc hrem
    obtain ⟨c2, hc2, rfl⟩ := remove_from_cart_ok s uid pid t hrem
    rw [hfc] at hc2
    injection hc2 with hcc
    subst hcc
    rfl
  · intro s nm cat pr st
    rfl
  · intro s uid
    unfold view_cart
    rcases findCart s uid with _ | c <;> rfl

/-- Witness for the amended C8: the successful checkout of `demoStore`
commits `demoPost`, in which cart 1 has no items left while the
`CONFIRMED` order with its final total sits in the `orders` table. -/
theorem claim_C8_witness :
    cartItemsOf demoPost 1 = []
    ∧ demoOrder.status = "CONFIRMED"
    ∧ demoOrder ∈ demoPost.orders :=
  claim_C8_amended.1 demoStore 1 { id := 1, user_id := 1 } demoPost demoOrder
    rfl (by with_unfolding_all rfl)

end ECommerce
